import Mathlib

/-!
Verification of the meshmux harmonic mesh-deformation tutorials.

The development shallowly embeds the mesh-motion logic of the repository:
node coordinates are rational triples (the coordinate array has three
columns even for planar meshes), boundary tagging maps facets to integer
markers, and the Dirichlet-constrained discrete Laplace system produced by
the assembly pipeline (assemble with boundary conditions, lifting of the
right-hand side, insertion of boundary values) is represented explicitly.
External solver calls are represented by their documented contract: a
solution is any vector satisfying the assembled constrained system.
-/

namespace Meshmux

/-- A planar point with rational coordinates, one row of the displacement
field or of the first two columns of the coordinate array. -/
abbrev Point2 : Type := ℚ × ℚ

/-- A row of the node coordinate storage. The storage always has three
columns, while a planar mesh uses only the first two. -/
abbrev Point3 : Type := ℚ × ℚ × ℚ

/-- A tagged boundary facet: an integer marker together with the degrees of
freedom located on the facet. -/
structure Facet where
  marker : ℕ
  dofs : List ℕ
deriving DecidableEq

/-- The mesh object: mutable node coordinate storage, element connectivity
and boundary tagging. Only the coordinate storage is ever written by the
deformation code. -/
structure Mesh where
  x : List Point3
  connectivity : List (ℕ × ℕ × ℕ)
  facets : List Facet
deriving DecidableEq

/-- The in-place coordinate update of the fundamentals tutorial: the nodal
displacement is added to the first two (geometric-dimension) columns of the
coordinate storage, the third column is carried over unchanged. -/
def addDisplacement (xs : List Point3) (uh : List Point2) : List Point3 :=
  List.zipWith (fun p u => (p.1 + u.1, p.2.1 + u.2, p.2.2)) xs uh

/-- The mesh as it stands inside the deformed scope of the fundamentals
tutorial: coordinates updated additively, all other mesh data untouched. -/
def script0Deformed (m : Mesh) (uh : List Point2) : Mesh :=
  { m with x := addDisplacement m.x uh }

/-- The control flow of the fundamentals tutorial around the solve: snapshot
the reference coordinates, then either the solve fails (nothing after the
solve runs, the mesh is untouched) or the solve returns a displacement, the
coordinates are updated in place, and finally the snapshot is written back
over the coordinate storage. -/
def script0Run (m : Mesh) (solveResult : Option (List Point2)) : Mesh :=
  let referenceCoordinates := m.x
  match solveResult with
  | none => m
  | some uh => { script0Deformed m uh with x := referenceCoordinates }

/-- A boundary displacement function: a pure map from a point to a vector
of the geometric dimension, interpreted as a displacement to add or as an
absolute target depending on the deformation flag. -/
abbrev BCFun : Type := Point2 → Point2

/-- The pairing loop of the tutorials: iterate over the positions of the
marker list and index the function list at the same position. Exhausting
the function list first raises an index error (None); markers exhausted
first ends the loop, ignoring any remaining functions. -/
def pairBoundaryConditions : List ℕ → List BCFun → Option (List (ℕ × BCFun))
  | [], _ => some []
  | _ :: _, [] => none
  | mk :: ms, f :: fs =>
      (pairBoundaryConditions ms fs).map (fun rest => (mk, f) :: rest)

/-- A degree of freedom is covered by a marker when some facet carrying
that marker contains it; this is the composition of the boundary-tag
lookup with the topological dof location of the tutorials. -/
def markerCovers (facets : List Facet) (mk : ℕ) (i : ℕ) : Bool :=
  facets.any (fun fc => decide (fc.marker = mk ∧ i ∈ fc.dofs))

/-- A dof is constrained when some pair of the boundary-condition list
covers it. -/
def isConstrained (facets : List Facet) (pairs : List (ℕ × BCFun)) (i : ℕ) : Bool :=
  pairs.any (fun pr => markerCovers facets pr.1 i)

/-- The prescribed boundary value at a constrained dof: the boundary
conditions are inserted into the right-hand side in list order, so at a dof
covered by several pairs the last covering pair wins; the function of that
pair is evaluated at the reference coordinates of the dof. -/
def bcValue (facets : List Facet) (pairs : List (ℕ × BCFun)) (coords : ℕ → Point2)
    (i : ℕ) : Point2 :=
  match (pairs.filter (fun pr => markerCovers facets pr.1 i)).getLast? with
  | some pr => pr.2 (coords i)
  | none => (0, 0)

/-- The stiffness matrix after boundary conditions are applied during
assembly: rows and columns of constrained dofs are zeroed with a unit
diagonal, free entries keep the raw bilinear-form values. -/
def liftedMatrix {n : ℕ} (A : Matrix (Fin n) (Fin n) ℚ) (isBC : Fin n → Bool) :
    Matrix (Fin n) (Fin n) ℚ :=
  Matrix.of fun i j => if isBC i || isBC j then (if i = j then 1 else 0) else A i j

/-- The right-hand side after lifting and boundary insertion: the raw
assembled load vector is zero (the linear form pairs the test function with
the zero constant), lifting subtracts the stiffness columns of constrained
dofs times their prescribed values, and boundary insertion overwrites
constrained entries with the prescribed values. -/
def liftedRHS {n : ℕ} (A : Matrix (Fin n) (Fin n) ℚ) (isBC : Fin n → Bool)
    (g : Fin n → ℚ) : Fin n → ℚ :=
  fun i => if isBC i then g i
    else 0 - Finset.univ.sum (fun j => if isBC j then A i j * g j else 0)

/-- A scalar field solves the assembled system when the lifted matrix
applied to it yields the lifted right-hand side; the external linear
solver is specified exactly by this contract. -/
def isSolution {n : ℕ} (A : Matrix (Fin n) (Fin n) ℚ) (isBC : Fin n → Bool)
    (g x : Fin n → ℚ) : Prop :=
  (liftedMatrix A isBC).mulVec x = liftedRHS A isBC g

/-- A vector field solves the assembled system when each spatial component
solves the scalar system, matching the component-wise Laplace solve. -/
def isSolutionVec {n : ℕ} (A : Matrix (Fin n) (Fin n) ℚ) (isBC : Fin n → Bool)
    (g x : Fin n → Point2) : Prop :=
  isSolution A isBC (fun i => (g i).1) (fun i => (x i).1) ∧
  isSolution A isBC (fun i => (g i).2) (fun i => (x i).2)

instance {n : ℕ} (A : Matrix (Fin n) (Fin n) ℚ) (isBC : Fin n → Bool)
    (g x : Fin n → ℚ) : Decidable (isSolution A isBC g x) := by
  unfold isSolution
  infer_instance

instance {n : ℕ} (A : Matrix (Fin n) (Fin n) ℚ) (isBC : Fin n → Bool)
    (g x : Fin n → Point2) : Decidable (isSolutionVec A isBC g x) := by
  unfold isSolutionVec
  infer_instance

/-- Modelled from the spec: the coordinate update performed at entry by the
HarmonicMeshMotion context manager; the class module
meshmux.mesh_motion_classes is imported by the tutorial but is not part of
the source tree. When is_deformation is true the new coordinates are the
old ones plus the solved displacement, when false the solved field itself
becomes the new coordinate field. -/
def entryUpdate {n : ℕ} (isDeformation : Bool) (coords uh : Fin n → Point2) :
    Fin n → Point2 :=
  fun i => if isDeformation then coords i + uh i else uh i

/-- Concrete two-dof stiffness matrix of a single segment element. -/
def segMatrix : Matrix (Fin 2) (Fin 2) ℚ := ![![1, -1], ![-1, 1]]

/-- Concrete path-graph stiffness matrix on three dofs. -/
def pathMatrix : Matrix (Fin 3) (Fin 3) ℚ := ![![1, -1, 0], ![-1, 2, -1], ![0, -1, 1]]

/-- Constant boundary function with value one in both components. -/
def fOne : BCFun := fun _ => (1, 1)

/-- Constant boundary function with value two in both components. -/
def fTwo : BCFun := fun _ => (2, 2)

/-- Two facets that share dof zero but carry different markers. -/
def overlapFacets : List Facet := [⟨1, [0]⟩, ⟨2, [0]⟩]

/-- Boundary-condition pairs prescribing conflicting values at the shared
dof: marker one maps to the constant-one function, marker two to the
constant-two function. -/
def overlapPairs : List (ℕ × BCFun) := [(1, fOne), (2, fTwo)]

/-- Reference coordinates for the two-dof example. -/
def overlapCoords : ℕ → Point2 := fun _ => (0, 0)

/-- The solved field of the two-dof overlapping example. -/
def overlapSolution : Fin 2 → Point2 := fun _ => (2, 2)

/-- Boundary tagging of the three-dof path: dof zero is on a facet with
marker one, dof two is on a facet with marker two, dof one is interior. -/
def pathFacets : List Facet := [⟨1, [0]⟩, ⟨2, [2]⟩]

/-- The single boundary-condition pair of the path example: only marker one
appears in the marker list, so the facet with marker two is untagged. -/
def pathPairs : List (ℕ × BCFun) := [(1, fOne)]

/-- Reference coordinates of the path example. -/
def pathCoords : ℕ → Point2 := fun k => ((k : ℚ), 0)

/-- The solved field of the path example: the constrained dof takes the
prescribed value one and the harmonic interior propagates it to the free
dofs, including the untagged boundary dof. -/
def pathSolution : Fin 3 → Point2 := fun _ => (1, 1)

/-- Dot product of two planar vectors. -/
def dot2 (u v : Point2) : ℚ := u.1 * v.1 + u.2 * v.2

/-- Cross product (scalar, z-component) of two planar vectors. -/
def cross2 (u v : Point2) : ℚ := u.1 * v.2 - u.2 * v.1

/-- Vector from the first point to the second. -/
def edgeVec (p q : Point2) : Point2 := (q.1 - p.1, q.2 - p.2)

/-- Modelled from the spec: the local stiffness of the bilinear form, the
integral over a linear triangle of the inner product of the gradients of
two barycentric basis functions. Finite-element assembly is delegated to
the external library, whose contract with the core is exactly the discrete
Laplace bilinear form of grad u dot grad v. -/
def triStiffness (p0 p1 p2 : Point2) (a b : Fin 3) : ℚ :=
  let e : Fin 3 → Point2 := fun k =>
    if k = 0 then edgeVec p1 p2 else if k = 1 then edgeVec p2 p0 else edgeVec p0 p1
  dot2 (e a) (e b) / (2 * cross2 (edgeVec p0 p1) (edgeVec p0 p2))

/-- The vertices of one triangle of the five-node square mesh. -/
def vertexOf (t : Fin 5 × Fin 5 × Fin 5) (k : Fin 3) : Fin 5 :=
  if k = 0 then t.1 else if k = 1 then t.2.1 else t.2.2

/-- The four triangles of the five-node square mesh: a fan around the
center node four, with the corner nodes zero to three on the boundary. -/
def squareTriangles : List (Fin 5 × Fin 5 × Fin 5) :=
  [(4, 0, 1), (4, 1, 2), (4, 2, 3), (4, 3, 0)]

/-- Modelled from the spec: global assembly of the stiffness matrix of the
discrete Laplace bilinear form on the current node coordinates of the
five-node square mesh. -/
def assembleStiffness (coords : Fin 5 → Point2) : Matrix (Fin 5) (Fin 5) ℚ :=
  Matrix.of fun i j =>
    (squareTriangles.map (fun t =>
      Finset.univ.sum fun a : Fin 3 => Finset.univ.sum fun b : Fin 3 =>
        if vertexOf t a = i ∧ vertexOf t b = j then
          triStiffness (coords (vertexOf t 0)) (coords (vertexOf t 1))
            (coords (vertexOf t 2)) a b
        else 0)).sum

/-- Boundary flags of the five-node square mesh: the four corner nodes are
on tagged boundary facets, the center node four is free. -/
def squareBC : Fin 5 → Bool := fun i => decide (i ≠ 4)

/-- The solved scalar field on the five-node mesh with every boundary node
constrained: the single free equation of the lifted system is solved in
closed form by dividing the lifted right-hand side by the free diagonal
entry of the stiffness matrix. -/
def solveOneFree (K : Matrix (Fin 5) (Fin 5) ℚ) (g : Fin 5 → ℚ) : Fin 5 → ℚ :=
  fun i => if i = 4 then
      (0 - Finset.univ.sum fun j => if j = 4 then 0 else K 4 j * g j) / K 4 4
    else g i

/-- Modelled from the spec: one entry of the HarmonicMeshMotion context on
the five-node square mesh with all boundary facets tagged. The boundary
function is interpolated at the current node coordinates, the Laplace
system is assembled on the current geometry (the deformed state is the new
reference for any subsequent operation), solved per spatial component, and
the coordinates are updated according to the deformation flag. -/
def harmonicStep (coords : Fin 5 → Point2) (f : BCFun) (isDeformation : Bool) :
    Fin 5 → Point2 :=
  let K := assembleStiffness coords
  let gb : Fin 5 → Point2 := fun i => f (coords i)
  let uh : Fin 5 → Point2 := fun i =>
    (solveOneFree K (fun j => (gb j).1) i, solveOneFree K (fun j => (gb j).2) i)
  fun i => if isDeformation then coords i + uh i else uh i

/-- The reference coordinates of the five-node unit-square mesh: the four
corners in counterclockwise order and the center. -/
def refCoords : Fin 5 → Point2 := fun i =>
  if i = 0 then (0, 0) else if i = 1 then (1, 0) else if i = 2 then (1, 1)
  else if i = 3 then (0, 1) else (1/2, 1/2)

/-- First boundary displacement of the composition example. -/
def fComposeA : BCFun := fun p => (p.1 * p.2, 0)

/-- Second boundary displacement of the composition example. -/
def fComposeB : BCFun := fun p => (0, p.1 * p.2)

/-- The function composition of the two effective displacements: the first
displacement plus the second evaluated at the once-displaced point. -/
def fComposedAB : BCFun := fun p => fComposeA p + fComposeB (p + fComposeA p)

/-- The node coordinates after the first context of the composition
example. -/
def coordsAfterA : Fin 5 → Point2 := fun i =>
  if i = 0 then (0, 0) else if i = 1 then (1, 0) else if i = 2 then (2, 1)
  else if i = 3 then (0, 1) else (3/4, 1/2)

/-- C1: deform-then-restore round trip. After snapshotting the node
coordinates at entry, applying the deformation in place and restoring the
snapshot on exit, the coordinate array equals the pre-entry array exactly,
for every mesh and every solved displacement field. -/
theorem deform_restore_roundtrip (m : Mesh) (uh : List Point2) :
    (script0Run m (some uh)).x = m.x := rfl

/-- C3: additive update mode. Every node coordinate row is updated by the
single rule new = old + uh on the geometric columns, the third storage
column being carried over; no other rule is applied to any node. -/
theorem additive_update (xs : List Point3) (uh : List Point2) (i : ℕ)
    (h1 : i < xs.length) (h2 : i < uh.length)
    (h3 : i < (addDisplacement xs uh).length) :
    (addDisplacement xs uh)[i] =
      ((xs[i]).1 + (uh[i]).1, (xs[i]).2.1 + (uh[i]).2, (xs[i]).2.2) := by
  simp [addDisplacement]

/-- Witness for the additive update theorem at a concrete coordinate array
and displacement field. -/
theorem additive_update_w :
    (addDisplacement [((1 : ℚ), (2 : ℚ), (5 : ℚ))] [((3 : ℚ), (4 : ℚ))]).get ⟨0, by decide⟩ =
      (1 + 3, 2 + 4, (5 : ℚ)) := by
  have h := additive_update [((1 : ℚ), (2 : ℚ), (5 : ℚ))] [((3 : ℚ), (4 : ℚ))] 0
    (by decide) (by decide) (by decide)
  simpa using h

/-- C4: exit-time atomicity on failure. On every exit path of the tutorial
flow the coordinate array equals the pre-entry snapshot; in particular when
the elliptic solve fails nothing has been mutated, because the coordinate
mutation happens only after the solve has succeeded. -/
theorem solve_failure_preserves_mesh (m : Mesh) (res : Option (List Point2)) :
    (script0Run m res).x = m.x ∧ (res = none → script0Run m res = m) := by
  refine ⟨?_, ?_⟩
  · cases res <;> rfl
  · intro h
    subst h
    rfl

/-- Witness for the solve-failure theorem at a concrete mesh. -/
theorem solve_failure_preserves_mesh_w :
    script0Run { x := [((0 : ℚ), (0 : ℚ), (0 : ℚ))], connectivity := [], facets := [] } none =
      { x := [((0 : ℚ), (0 : ℚ), (0 : ℚ))], connectivity := [], facets := [] } :=
  (solve_failure_preserves_mesh
    { x := [((0 : ℚ), (0 : ℚ), (0 : ℚ))], connectivity := [], facets := [] } none).2 rfl

/-- C10: frame property of the coordinate update. The deformation writes
only the first two (geometric-dimension) columns of the coordinate storage:
the third column of every row is unchanged, and element connectivity and
boundary tags are never modified. -/
theorem frame_effect_of_deformation (m : Mesh) (uh : List Point2) :
    (script0Deformed m uh).connectivity = m.connectivity ∧
    (script0Deformed m uh).facets = m.facets ∧
    ∀ (i : ℕ) (h1 : i < m.x.length) (h2 : i < uh.length)
      (h3 : i < (script0Deformed m uh).x.length),
      ((script0Deformed m uh).x[i]).2.2 = ((m.x)[i]).2.2 := by
  refine ⟨rfl, rfl, ?_⟩
  intro i h1 h2 h3
  simp [script0Deformed, addDisplacement]

/-- Witness for the frame theorem at a concrete mesh and displacement. -/
theorem frame_effect_of_deformation_w :
    ((script0Deformed
        { x := [((1 : ℚ), (2 : ℚ), (7 : ℚ))], connectivity := [(0, 1, 2)],
          facets := [] }
        [((3 : ℚ), (4 : ℚ))]).x.get ⟨0, by decide⟩).2.2 = (7 : ℚ) := by
  have h := (frame_effect_of_deformation
    { x := [((1 : ℚ), (2 : ℚ), (7 : ℚ))], connectivity := [(0, 1, 2)], facets := [] }
    [((3 : ℚ), (4 : ℚ))]).2.2 0 (by decide) (by decide) (by decide)
  simpa using h

/-- Helper: any solution of the assembled system takes the prescribed value
at every constrained dof, because the constrained row of the lifted matrix
is a unit row and the right-hand side entry is the prescribed value. -/
theorem solution_bc_eq {n : ℕ} {A : Matrix (Fin n) (Fin n) ℚ} {isBC : Fin n → Bool}
    {g x : Fin n → ℚ} (hs : isSolution A isBC g x) {i : Fin n}
    (hi : isBC i = true) : x i = g i := by
  have h := congrFun hs i
  simpa [Matrix.mulVec, Matrix.dotProduct, liftedMatrix, liftedRHS, hi, ite_mul,
    Finset.sum_ite_eq] using h

/-- Helper: at a free dof the raw stiffness matrix applied to any solution
vanishes; the free row of the lifted system carries the raw entries on free
columns while the lifted right-hand side carries the constrained columns. -/
theorem solution_harmonic {n : ℕ} {A : Matrix (Fin n) (Fin n) ℚ} {isBC : Fin n → Bool}
    {g x : Fin n → ℚ} (hs : isSolution A isBC g x) {i : Fin n}
    (hi : isBC i = false) : A.mulVec x i = 0 := by
  have h := congrFun hs i
  have hLHS : (liftedMatrix A isBC).mulVec x i
      = Finset.univ.sum fun j => if isBC j then 0 else A i j * x j := by
    simp only [Matrix.mulVec, Matrix.dotProduct, liftedMatrix, Matrix.of_apply, hi,
      Bool.false_or]
    refine Finset.sum_congr rfl ?_
    intro j _
    by_cases hj : isBC j = true
    · have hij : i ≠ j := by
        intro e
        rw [e, hj] at hi
        simp at hi
      simp [hj, hij]
    · have hj2 : isBC j = false := by
        simpa using hj
      simp [hj2]
  have hRHS : liftedRHS A isBC g i
      = 0 - Finset.univ.sum fun j => if isBC j then A i j * g j else 0 := by
    simp [liftedRHS, hi]
  rw [hLHS, hRHS] at h
  have hsplit : A.mulVec x i
      = (Finset.univ.sum fun j => if isBC j then A i j * g j else 0)
        + Finset.univ.sum fun j => if isBC j then 0 else A i j * x j := by
    rw [← Finset.sum_add_distrib]
    simp only [Matrix.mulVec, Matrix.dotProduct]
    refine Finset.sum_congr rfl ?_
    intro j _
    by_cases hj : isBC j = true
    · simp [hj, solution_bc_eq hs hj]
    · have hj2 : isBC j = false := by
        simpa using hj
      simp [hj2]
  rw [hsplit, h]
  ring

/-- Helper: the constant-two field solves the assembled system of the
two-dof overlapping example. -/
theorem overlap_solution_solves :
    isSolutionVec segMatrix (fun j => isConstrained overlapFacets overlapPairs j.val)
      (fun j => bcValue overlapFacets overlapPairs overlapCoords j.val)
      overlapSolution := by
  refine ⟨funext fun i => ?_, funext fun i => ?_⟩ <;>
    fin_cases i <;>
      simp +decide [liftedMatrix, liftedRHS, isConstrained, markerCovers, bcValue,
        overlapFacets, overlapPairs, overlapCoords, overlapSolution, segMatrix,
        fOne, fTwo, Matrix.mulVec, Matrix.dotProduct, Fin.sum_univ_two] <;>
      norm_num

/-- Helper: the constant-one field solves the assembled system of the
three-dof path example. -/
theorem path_solution_solves :
    isSolutionVec pathMatrix (fun j => isConstrained pathFacets pathPairs j.val)
      (fun j => bcValue pathFacets pathPairs pathCoords j.val) pathSolution := by
  refine ⟨funext fun i => ?_, funext fun i => ?_⟩ <;>
    fin_cases i <;>
      simp +decide [liftedMatrix, liftedRHS, isConstrained, markerCovers, bcValue,
        pathFacets, pathPairs, pathCoords, pathSolution, pathMatrix,
        fOne, Matrix.mulVec, Matrix.dotProduct, Fin.sum_univ_three] <;>
      norm_num

/-- C2 (amended): boundary exactness under ordered insertion. Any solution
of the assembled system equals, at every constrained dof, the value of the
function paired with the last covering marker of the list evaluated at the
reference coordinates of that dof; consequently, whenever all pairs
covering the dof agree there (in particular when a single tagged facet
group covers it), the solution equals the paired function value. -/
theorem boundary_value_exactness {n : ℕ} (A : Matrix (Fin n) (Fin n) ℚ)
    (facets : List Facet) (pairs : List (ℕ × BCFun)) (coords : ℕ → Point2)
    (x : Fin n → Point2)
    (hs : isSolutionVec A (fun j => isConstrained facets pairs j.val)
      (fun j => bcValue facets pairs coords j.val) x)
    (i : Fin n) (hi : isConstrained facets pairs i.val = true) :
    x i = bcValue facets pairs coords i.val ∧
    ∀ pr ∈ pairs, markerCovers facets pr.1 i.val = true →
      (∀ qr ∈ pairs, markerCovers facets qr.1 i.val = true →
        qr.2 (coords i.val) = pr.2 (coords i.val)) →
      x i = pr.2 (coords i.val) := by
  have hfst := solution_bc_eq hs.1 hi
  have hsnd := solution_bc_eq hs.2 hi
  have hxi : x i = bcValue facets pairs coords i.val := Prod.ext_iff.mpr ⟨hfst, hsnd⟩
  refine ⟨hxi, ?_⟩
  intro pr hpr hcov hagree
  have hex : ∃ qr ∈ pairs, markerCovers facets qr.1 i.val = true := by
    simpa [isConstrained, List.any_eq_true] using hi
  have hne : pairs.filter (fun qr => markerCovers facets qr.1 i.val) ≠ [] := by
    intro hnil
    obtain ⟨qr, hqr, hq⟩ := hex
    exact (List.filter_eq_nil_iff.mp hnil qr hqr) hq
  have hlast := List.getLast?_eq_getLast_of_ne_nil hne
  have hmem := List.getLast_mem hne
  obtain ⟨hmemPairs, hcovLast⟩ := List.mem_filter.mp hmem
  have hbv : bcValue facets pairs coords i.val
      = ((pairs.filter (fun qr => markerCovers facets qr.1 i.val)).getLast hne).2
          (coords i.val) := by
    rw [bcValue, hlast]
  rw [hxi, hbv]
  exact hagree _ hmemPairs (by simpa using hcovLast)

/-- C2 counterexample: a dof shared by two tagged facet groups with
conflicting prescribed values. The dof lies on a facet tagged with marker
one whose paired function prescribes the value one, yet every solution of
the assembled system takes the value two there: boundary values are
inserted in list order and the later pair overwrites the earlier one. -/
theorem boundary_value_overlap_cex :
    pairBoundaryConditions [1, 2] [fOne, fTwo] = some overlapPairs ∧
    markerCovers overlapFacets 1 0 = true ∧
    isSolutionVec segMatrix (fun j => isConstrained overlapFacets overlapPairs j.val)
      (fun j => bcValue overlapFacets overlapPairs overlapCoords j.val)
      overlapSolution ∧
    overlapSolution 0 ≠ fOne (overlapCoords 0) :=
  ⟨rfl, by decide, overlap_solution_solves,
    by norm_num [overlapSolution, fOne, overlapCoords, Prod.ext_iff]⟩

/-- Witness for the amended boundary exactness theorem on the path example,
where the constrained dof is covered by exactly one pair. -/
theorem boundary_value_exactness_w :
    pathSolution 0 = bcValue pathFacets pathPairs pathCoords (0 : Fin 3).val ∧
    ∀ pr ∈ pathPairs, markerCovers pathFacets pr.1 (0 : Fin 3).val = true →
      (∀ qr ∈ pathPairs, markerCovers pathFacets qr.1 (0 : Fin 3).val = true →
        qr.2 (pathCoords (0 : Fin 3).val) = pr.2 (pathCoords (0 : Fin 3).val)) →
      pathSolution 0 = pr.2 (pathCoords (0 : Fin 3).val) :=
  boundary_value_exactness pathMatrix pathFacets pathPairs pathCoords pathSolution
    path_solution_solves 0 (by decide)

/-- C5: untagged boundaries are unconstrained. A dof lying only on facets
whose markers appear in no boundary-condition pair receives no constraint;
moreover, on the concrete path instance the untagged boundary dof two is
unconstrained and its solved displacement is non-zero, so it moves. -/
theorem untagged_boundary_unconstrained (facets : List Facet)
    (pairs : List (ℕ × BCFun)) (i : ℕ)
    (h : ∀ fc ∈ facets, i ∈ fc.dofs → ∀ pr ∈ pairs, fc.marker ≠ pr.1) :
    isConstrained facets pairs i = false ∧
    (isConstrained pathFacets pathPairs 2 = false ∧
     isSolutionVec pathMatrix (fun j => isConstrained pathFacets pathPairs j.val)
       (fun j => bcValue pathFacets pathPairs pathCoords j.val) pathSolution ∧
     pathSolution 2 ≠ (0, 0)) := by
  refine ⟨?_, by decide, path_solution_solves,
    by norm_num [pathSolution, Prod.ext_iff]⟩
  rw [isConstrained, List.any_eq_false]
  intro pr hpr
  intro hcov
  rw [markerCovers, List.any_eq_true] at hcov
  obtain ⟨fc, hfc, hb⟩ := hcov
  rw [decide_eq_true_eq] at hb
  exact h fc hfc hb.2 pr hpr hb.1

/-- Witness for the untagged-boundary theorem at the path instance: dof two
lies only on the facet with marker two, which no pair mentions. -/
theorem untagged_boundary_unconstrained_w :
    isConstrained pathFacets pathPairs 2 = false ∧
    (isConstrained pathFacets pathPairs 2 = false ∧
     isSolutionVec pathMatrix (fun j => isConstrained pathFacets pathPairs j.val)
       (fun j => bcValue pathFacets pathPairs pathCoords j.val) pathSolution ∧
     pathSolution 2 ≠ (0, 0)) :=
  untagged_boundary_unconstrained pathFacets pathPairs 2 (by decide)

/-- C6 (amended): behavior of the pairing loop on mismatched lengths. The
loop fails (raises an index error) exactly when the function list is
strictly shorter than the marker list; when the function list is at least
as long, the loop succeeds and pairs the markers with the corresponding
prefix of the function list, silently ignoring any extra functions. -/
theorem pairing_length_behavior (markers : List ℕ) (funcs : List BCFun) :
    (pairBoundaryConditions markers funcs = none ↔
      funcs.length < markers.length) ∧
    (markers.length ≤ funcs.length →
      pairBoundaryConditions markers funcs = some (markers.zip funcs)) := by
  induction markers generalizing funcs with
  | nil =>
    refine ⟨?_, ?_⟩ <;> simp [pairBoundaryConditions]
  | cons mk ms ih =>
    cases funcs with
    | nil =>
      refine ⟨?_, ?_⟩ <;> simp [pairBoundaryConditions]
    | cons f fs =>
      refine ⟨?_, ?_⟩
      · rw [pairBoundaryConditions]
        rw [Option.map_eq_none']
        rw [(ih fs).1]
        simp only [List.length_cons]
        omega
      · intro hle
        rw [pairBoundaryConditions]
        rw [(ih fs).2 (by simpa using hle)]
        rfl

/-- C6 counterexample: the marker list and the function list have different
lengths, yet the pairing succeeds and silently pairs the single marker with
a prefix of the function list. -/
theorem pairing_prefix_cex :
    ([1].length ≠ [fOne, fTwo].length) ∧
    pairBoundaryConditions [1] [fOne, fTwo] = some [(1, fOne)] :=
  ⟨by decide, rfl⟩

/-- Witness for the pairing-length theorem at concrete equal-length lists. -/
theorem pairing_length_behavior_w :
    pairBoundaryConditions [1, 2] [fOne, fTwo] = some ([1, 2].zip [fOne, fTwo]) :=
  (pairing_length_behavior [1, 2] [fOne, fTwo]).2 (by decide)

/-- C7: discrete harmonicity. For any solution of the assembled system the
raw stiffness matrix applied to each spatial component of the solved field
vanishes at every unconstrained dof: the discrete Laplacian of the solved
field is zero at untagged nodes, the assembled right-hand side being zero
there up to lifting. -/
theorem interior_discrete_laplacian_zero {n : ℕ} (A : Matrix (Fin n) (Fin n) ℚ)
    (isBC : Fin n → Bool) (g x : Fin n → Point2)
    (hs : isSolutionVec A isBC g x) (i : Fin n) (hi : isBC i = false) :
    A.mulVec (fun j => (x j).1) i = 0 ∧ A.mulVec (fun j => (x j).2) i = 0 :=
  ⟨solution_harmonic hs.1 hi, solution_harmonic hs.2 hi⟩

/-- Witness for the harmonicity theorem on the path instance at the
interior dof one. -/
theorem interior_discrete_laplacian_zero_w :
    pathMatrix.mulVec (fun j => (pathSolution j).1) 1 = 0 ∧
    pathMatrix.mulVec (fun j => (pathSolution j).2) 1 = 0 :=
  interior_discrete_laplacian_zero pathMatrix
    (fun j => isConstrained pathFacets pathPairs j.val)
    (fun j => bcValue pathFacets pathPairs pathCoords j.val) pathSolution
    path_solution_solves 1 (by decide)

/-- C9: absolute-coordinate mode. When is_deformation is false the entry
update writes the solved field itself as the new coordinate field at every
node (not added to the old coordinates), and at every constrained dof the
new coordinates equal the prescribed boundary value, so boundary function
values act as absolute target coordinates propagated inward by the solve. -/
theorem absolute_mode_update {n : ℕ} (A : Matrix (Fin n) (Fin n) ℚ)
    (facets : List Facet) (pairs : List (ℕ × BCFun)) (coords : ℕ → Point2)
    (xsOld uh : Fin n → Point2)
    (hs : isSolutionVec A (fun j => isConstrained facets pairs j.val)
      (fun j => bcValue facets pairs coords j.val) uh) :
    (∀ i, entryUpdate false xsOld uh i = uh i) ∧
    (∀ i : Fin n, isConstrained facets pairs i.val = true →
      entryUpdate false xsOld uh i = bcValue facets pairs coords i.val) := by
  refine ⟨fun i => rfl, fun i hi => ?_⟩
  have hfst := solution_bc_eq hs.1 hi
  have hsnd := solution_bc_eq hs.2 hi
  simpa [entryUpdate] using Prod.ext_iff.mpr ⟨hfst, hsnd⟩

/-- Witness for the absolute-mode theorem on the path instance. -/
theorem absolute_mode_update_w :
    entryUpdate false (fun _ => ((9 : ℚ), (9 : ℚ))) pathSolution 0 =
      bcValue pathFacets pathPairs pathCoords (0 : Fin 3).val :=
  (absolute_mode_update pathMatrix pathFacets pathPairs pathCoords
    (fun _ => ((9 : ℚ), (9 : ℚ))) pathSolution path_solution_solves).2 0 (by decide)

/-- Helper: the closed-form one-free-node solver produces a solution of the
lifted system whenever the free diagonal entry is non-zero, validating the
composition model against the solver contract. -/
theorem solveOneFree_isSolution (K : Matrix (Fin 5) (Fin 5) ℚ) (g : Fin 5 → ℚ)
    (hK : K 4 4 ≠ 0) : isSolution K squareBC g (solveOneFree K g) := by
  refine funext fun i => ?_
  fin_cases i <;>
    simp +decide [liftedMatrix, liftedRHS, squareBC, solveOneFree, Matrix.mulVec,
      Matrix.dotProduct, Fin.sum_univ_five] <;>
    field_simp

/-- Helper: center-row stiffness entry zero on the reference square. -/
theorem Kref_40 : assembleStiffness refCoords 4 0 = -1 := by
  simp +decide [assembleStiffness, squareTriangles, vertexOf, triStiffness, dot2,
    cross2, edgeVec, refCoords, Fin.sum_univ_three] <;> norm_num

/-- Helper: center-row stiffness entry one on the reference square. -/
theorem Kref_41 : assembleStiffness refCoords 4 1 = -1 := by
  simp +decide [assembleStiffness, squareTriangles, vertexOf, triStiffness, dot2,
    cross2, edgeVec, refCoords, Fin.sum_univ_three] <;> norm_num

/-- Helper: center-row stiffness entry two on the reference square. -/
theorem Kref_42 : assembleStiffness refCoords 4 2 = -1 := by
  simp +decide [assembleStiffness, squareTriangles, vertexOf, triStiffness, dot2,
    cross2, edgeVec, refCoords, Fin.sum_univ_three] <;> norm_num

/-- Helper: center-row stiffness entry three on the reference square. -/
theorem Kref_43 : assembleStiffness refCoords 4 3 = -1 := by
  simp +decide [assembleStiffness, squareTriangles, vertexOf, triStiffness, dot2,
    cross2, edgeVec, refCoords, Fin.sum_univ_three] <;> norm_num

/-- Helper: center diagonal stiffness entry on the reference square. -/
theorem Kref_44 : assembleStiffness refCoords 4 4 = 4 := by
  simp +decide [assembleStiffness, squareTriangles, vertexOf, triStiffness, dot2,
    cross2, edgeVec, refCoords, Fin.sum_univ_three] <;> norm_num

/-- Helper: center-row stiffness entry zero on the deformed geometry. -/
theorem KA_40 : assembleStiffness coordsAfterA 4 0 = -7/12 := by
  simp +decide [assembleStiffness, squareTriangles, vertexOf, triStiffness, dot2,
    cross2, edgeVec, coordsAfterA, Fin.sum_univ_three] <;> norm_num

/-- Helper: center-row stiffness entry one on the deformed geometry. -/
theorem KA_41 : assembleStiffness coordsAfterA 4 1 = -23/12 := by
  simp +decide [assembleStiffness, squareTriangles, vertexOf, triStiffness, dot2,
    cross2, edgeVec, coordsAfterA, Fin.sum_univ_three] <;> norm_num

/-- Helper: center-row stiffness entry two on the deformed geometry. -/
theorem KA_42 : assembleStiffness coordsAfterA 4 2 = -11/12 := by
  simp +decide [assembleStiffness, squareTriangles, vertexOf, triStiffness, dot2,
    cross2, edgeVec, coordsAfterA, Fin.sum_univ_three] <;> norm_num

/-- Helper: center-row stiffness entry three on the deformed geometry. -/
theorem KA_43 : assembleStiffness coordsAfterA 4 3 = -19/12 := by
  simp +decide [assembleStiffness, squareTriangles, vertexOf, triStiffness, dot2,
    cross2, edgeVec, coordsAfterA, Fin.sum_univ_three] <;> norm_num

/-- Helper: center diagonal stiffness entry on the deformed geometry. -/
theorem KA_44 : assembleStiffness coordsAfterA 4 4 = 5 := by
  simp +decide [assembleStiffness, squareTriangles, vertexOf, triStiffness, dot2,
    cross2, edgeVec, coordsAfterA, Fin.sum_univ_three] <;> norm_num

/-- Helper: evaluation of the first context of the composition example. -/
theorem stepA_eval : harmonicStep refCoords fComposeA true = coordsAfterA := by
  funext i
  fin_cases i <;>
    simp +decide [harmonicStep, solveOneFree, Fin.sum_univ_five,
      Kref_40, Kref_41, Kref_42, Kref_43, Kref_44,
      refCoords, fComposeA, coordsAfterA, Prod.ext_iff] <;>
    norm_num

/-- Helper: evaluation of the second context of the composition example at
the center node. -/
theorem stepB_eval : harmonicStep coordsAfterA fComposeB true 4 = (3/4, 13/15) := by
  simp +decide [harmonicStep, solveOneFree, Fin.sum_univ_five,
    KA_40, KA_41, KA_42, KA_43, KA_44, coordsAfterA, fComposeB, Prod.ext_iff] <;>
  norm_num

/-- Helper: evaluation of the single composed context of the composition
example at the center node. -/
theorem composed_eval : harmonicStep refCoords fComposedAB true 4 = (3/4, 1) := by
  simp +decide [harmonicStep, solveOneFree, Fin.sum_univ_five,
    Kref_40, Kref_41, Kref_42, Kref_43, Kref_44,
    refCoords, fComposedAB, fComposeA, fComposeB, Prod.ext_iff] <;>
  norm_num

/-- C8 counterexample: on the five-node square mesh, a context with the
first boundary function followed by a context with the second one, run on
the deformed geometry, moves the center node to a position different from
the one produced by a single context whose boundary function is the
composition of the two effective displacements: the second solve is
assembled on the deformed geometry, so only boundary nodes compose. -/
theorem sequential_composition_cex :
    harmonicStep (harmonicStep refCoords fComposeA true) fComposeB true 4 ≠
      harmonicStep refCoords fComposedAB true 4 := by
  rw [stepA_eval, stepB_eval, composed_eval]
  norm_num [Prod.ext_iff]

/-- C8 (amended): sequential contexts compose exactly on the constrained
boundary nodes. For every tagged boundary node, two successive contexts
yield the same coordinates as a single context with the composed
displacement; the interior node may differ because the second solve is
assembled on the deformed geometry. -/
theorem boundary_sequential_composition (coords : Fin 5 → Point2) (f g : BCFun)
    (i : Fin 5) (hi : i ≠ 4) :
    harmonicStep (harmonicStep coords f true) g true i =
      harmonicStep coords (fun p => f p + g (p + f p)) true i := by
  have hstep : ∀ (c : Fin 5 → Point2) (h : BCFun),
      harmonicStep c h true i = c i + h (c i) := by
    intro c h
    simp [harmonicStep, solveOneFree, hi]
  rw [hstep, hstep, hstep, add_assoc]

/-- Witness for the boundary composition theorem at corner node zero of the
composition example. -/
theorem boundary_sequential_composition_w :
    harmonicStep (harmonicStep refCoords fComposeA true) fComposeB true 0 =
      harmonicStep refCoords
        (fun p => fComposeA p + fComposeB (p + fComposeA p)) true 0 :=
  boundary_sequential_composition refCoords fComposeA fComposeB 0 (by decide)

end Meshmux
